import Mathlib

/-!
Shallow embedding of `morepath/publish.py`.

The module turns a request into a response in two phases:

* `resolve_model` consumes the request's stack of unconsumed path segments
  against the current application's path registry, traversing mounted
  applications, and yields a model object or `None`;
* `resolve_response` derives a view name from the leftover segments via
  `get_view_name`, writes it onto the request, and dispatches through the
  application's `get_view` (raising `HTTPNotFound` when no view name can be
  derived).

The path registry (`app.config.path_registry.consume`) and the view registry
(`app.get_view`) live outside this module; they are modelled as opaque pure
functions in an `Env` record.  `consume` inspects and rewrites the request's
`unconsumed` stack and returns a model object, an `App`, or `None`;
`get_view` returns a response or signals not-found (modelled as `Option`).

Mutable Python state is threaded explicitly: the per-request fields
`unconsumed`, `app`, `view_name` together with the `parent` field of every
application (written by `next.parent = app` during mount transitions) form
the state record `RState`.  The Python `while` loop does not terminate for
every conceivable registry, so the loop is given fuel; a distinguished
`fuelOut` marker records fuel exhaustion and the termination theorems show
that fuel `|unconsumed| + 1` suffices for well-behaved registries.
-/

namespace Morepath

/-- Applications are identified by an id; their mutable `parent` field lives
in the request-visible state, their registries in the environment. -/
abbrev AppId := Nat

/-- A value returned by a path registry's `consume`: either an `App` instance
(`isinstance(next, App)` in the source) or a non-app model object. -/
inductive Obj (α : Type) where
  | app (a : AppId)
  | model (m : α)
deriving DecidableEq, Repr

/-- The mutable state visible to `publish`: the request's `unconsumed`
segment stack, its current `app`, its `view_name` field (Python value `None`
modelled as `none`), and the `parent` field of every application. -/
structure RState where
  unconsumed : List String
  app : AppId
  view_name : Option String
  parent : AppId → Option AppId

/-- The two registries consumed by the module, per application.  `consume`
returns the found object (or `none` for the not-found signal) together with
the rewritten `unconsumed` stack; `get_view` receives the current app, the
resolved object (possibly `none`, as in the source, where `publish` passes
whatever `resolve_model` returned) and the request, and returns a response
or `none` for a not-found signal.  Being plain functions, the registries
themselves are immutable. -/
structure Env (α ρ : Type) where
  consume : AppId → List String → Option (Obj α) × List String
  get_view : AppId → Option (Obj α) → RState → Option ρ

/-- `DEFAULT_NAME = u''` -/
def DEFAULT_NAME : String := ""

/-- `stack[0].lstrip('+')`: remove every leading `'+'` character. -/
def lstripPlus (s : String) : String :=
  ⟨s.data.dropWhile (fun c => c == '+')⟩

/-- `get_view_name(stack)`: branches on `len(stack)` being 0, 1 or more;
the three match arms are exactly those three branches. -/
def get_view_name (stack : List String) : Option String :=
  match stack with
  | [] => some DEFAULT_NAME
  | [s] => some (lstripPlus s)
  | _ => none

/-- How the `while request.unconsumed:` loop ended: `ret m` for the
`return next` of a non-app object, `fell nf` for falling through to the code
after the loop (`nf = true` when via the `break` on a not-found signal,
`nf = false` when the loop condition turned false), `fuelOut` when the given
fuel was exhausted (the Python loop would still be running). -/
inductive LoopExit (α : Type) where
  | ret (m : α)
  | fell (nf : Bool)
  | fuelOut
deriving DecidableEq, Repr

/-- Result of running the loop: how it exited, the final value of the local
variable `app`, the state, and how many `consume` calls were made. -/
structure LoopOut (α : Type) where
  exit : LoopExit α
  app : AppId
  st : RState
  calls : Nat

/-- The `while request.unconsumed:` loop of `resolve_model`, with fuel.
Each iteration calls `app.config.path_registry.consume(request)`; on `None`
it breaks, on a non-app object it returns it, on an app `b` it performs the
mount transition `next.parent = app; request.app = next; app = next`. -/
def resolveModelLoop (env : Env α ρ) : Nat → AppId → RState → LoopOut α
  | 0, app, st => ⟨.fuelOut, app, st, 0⟩
  | fuel + 1, app, st =>
    if st.unconsumed.isEmpty then
      ⟨.fell false, app, st, 0⟩
    else
      let r := env.consume app st.unconsumed
      let st1 : RState := { st with unconsumed := r.2 }
      match r.1 with
      | none => ⟨.fell true, app, st1, 1⟩
      | some (.model m) => ⟨.ret m, app, st1, 1⟩
      | some (.app b) =>
        let st2 : RState :=
          { st1 with
            app := b
            parent := fun x => if x = b then some app else st1.parent x }
        let out := resolveModelLoop env fuel b st2
        { out with calls := out.calls + 1 }

/-- What `resolve_model` returns: a (possibly app) object, Python `None`,
or the fuel-exhaustion marker. -/
inductive RMRes (α : Type) where
  | obj (o : Obj α)
  | nul
  | fuelOut
deriving DecidableEq, Repr

/-- Result of `resolve_model`: its return value, the state, and the total
number of `consume` calls made. -/
structure RMOut (α : Type) where
  res : RMRes α
  st : RState
  calls : Nat

/-- `resolve_model(request)`: run the loop; after it, if
`not request.unconsumed`, `return app.config.path_registry.consume(request)`
(one final consume attempt), else `return None`. -/
def resolve_model (env : Env α ρ) (fuel : Nat) (st0 : RState) : RMOut α :=
  let out := resolveModelLoop env fuel st0.app st0
  match out.exit with
  | .fuelOut => ⟨.fuelOut, out.st, out.calls⟩
  | .ret m => ⟨.obj (.model m), out.st, out.calls⟩
  | .fell _ =>
    if out.st.unconsumed.isEmpty then
      let r := env.consume out.app out.st.unconsumed
      ⟨match r.1 with
       | none => .nul
       | some o => .obj o,
       { out.st with unconsumed := r.2 }, out.calls + 1⟩
    else
      ⟨.nul, out.st, out.calls⟩

/-- Outcome of `resolve_response` / `publish`: a response, a not-found
condition (an `HTTPNotFound` raised here or a not-found signalled by the
view registry), or the fuel-exhaustion marker. -/
inductive Outcome (ρ : Type) where
  | resp (r : ρ)
  | notFound
  | fuelOut
deriving DecidableEq, Repr

/-- `resolve_response(obj, request)`: set
`request.view_name = get_view_name(request.unconsumed)`; if it is `None`
raise `HTTPNotFound`; otherwise `return request.app.get_view(obj, request)`. -/
def resolve_response (env : Env α ρ) (obj : Option (Obj α)) (st : RState) :
    Outcome ρ × RState :=
  let vn := get_view_name st.unconsumed
  let st1 : RState := { st with view_name := vn }
  match vn with
  | none => (.notFound, st1)
  | some _ =>
    (match env.get_view st1.app obj st1 with
     | none => .notFound
     | some r => .resp r, st1)

/-- `publish(request)`: `obj = resolve_model(request);
return resolve_response(obj, request)`.  The `fuelOut` marker propagates. -/
def publish (env : Env α ρ) (fuel : Nat) (st : RState) : Outcome ρ × RState :=
  let out := resolve_model env fuel st
  match out.res with
  | .fuelOut => (.fuelOut, out.st)
  | .obj o => resolve_response env (some o) out.st
  | .nul => resolve_response env none out.st

/-! ### Concrete registries and states used to evaluate the theorems -/

/-- No application has its parent field set. -/
def parent0 : AppId → Option AppId := fun _ => none

/-- A request state with the given stack and current app, `view_name`
holding Python `None`, and no parent links set. -/
def mkSt (unc : List String) (ap : AppId) : RState :=
  ⟨unc, ap, none, parent0⟩

/-- A path registry that always signals not-found and consumes nothing,
next to a view registry that answers every lookup — also one whose model
object is the null object. -/
def envAlwaysMiss : Env Nat Nat :=
  ⟨fun _ unc => (none, unc), fun _ _ _ => some 99⟩

/-- A mount fixture: app 0 consumes the segment `sub` into mounted app 1,
and app 1 resolves its own root object 7 from an empty stack. -/
def consumeMount : AppId → List String → Option (Obj Nat) × List String
  | 0, ["sub"] => (some (.app 1), [])
  | 1, [] => (some (.model 7), [])
  | _, unc => (none, unc)

/-- The mount fixture as an environment (its view registry never matches). -/
def envMount : Env Nat Nat := ⟨consumeMount, fun _ _ _ => none⟩

/-- A registry that pops the whole stack `[a]` while signalling not-found,
and then resolves the root object 42 from the emptied stack. -/
def consumeDrain : AppId → List String → Option (Obj Nat) × List String
  | 0, ["a"] => (none, [])
  | 0, [] => (some (.model 42), [])
  | _, unc => (none, unc)

/-- The draining registry as an environment. -/
def envDrain : Env Nat Nat := ⟨consumeDrain, fun _ _ _ => none⟩

/-- A registry that resolves model object 0 at once, consuming the whole
stack and never returning an app. -/
def envLeaf : Env Nat Nat :=
  ⟨fun _ _ => (some (.model 0), []), fun _ _ _ => none⟩

/-- Registry assumption used by the termination claims: a `consume` call
that returns an `App` (a mount transition, which keeps the loop running)
strictly shrinks the unconsumed stack. -/
def ShrinksOnApp (env : Env α ρ) : Prop :=
  ∀ a : AppId, ∀ unc : List String, ∀ b : AppId, ∀ unc' : List String,
    unc ≠ [] → env.consume a unc = (some (.app b), unc') →
      unc'.length < unc.length

/-- A request for the mount fixture's path `sub`, starting at app 0. -/
def stMount : RState := mkSt ["sub"] 0

/-- The state right after the mount fixture's mount transition: the segment
consumed, the current app now 1, and app 1's parent set to app 0. -/
def stAfterMount : RState :=
  ⟨[], 1, none, fun x => if x = 1 then some 0 else parent0 x⟩

end Morepath

namespace Morepath

/-! ### Helper lemmas -/

/-- The head of `dropWhile p l` never satisfies `p`. -/
theorem head_dropWhile_not {p : Char → Bool} :
    ∀ (l : List Char) (x : Char), (l.dropWhile p).head? = some x → ¬ p x := by
  intro l
  induction l with
  | nil =>
    intro x h
    simp [List.dropWhile] at h
  | cons a t ih =>
    intro x h
    by_cases hp : p a
    · simp [List.dropWhile, hp] at h
      exact ih x h
    · simp [List.dropWhile, hp] at h
      subst h
      simp [hp]

/-! ### Claim theorems -/

/-- C5: view-name derivation from the leftover stack is exactly: zero
segments yield the default view name, the empty string; one segment yields
that segment with every leading plus character removed (so the plus-marked
segment and the bare segment for `edit` agree); two or more segments yield
no view name. -/
theorem C5_get_view_name_cases :
    (get_view_name [] = some DEFAULT_NAME ∧ DEFAULT_NAME = "") ∧
    (∀ s : String, ∃ n : Nat, ∃ t : String,
      get_view_name [s] = some t ∧
      s.data = List.replicate n '+' ++ t.data ∧
      ∀ c : Char, t.data.head? = some c → c ≠ '+') ∧
    (∀ a b : String, ∀ rest : List String,
      get_view_name (a :: b :: rest) = none) ∧
    get_view_name ["+edit"] = some "edit" ∧
    get_view_name ["edit"] = some "edit" := by
  refine ⟨⟨rfl, rfl⟩, ?_, ?_, ?_, ?_⟩
  · intro s
    refine ⟨(s.data.takeWhile (fun c => c == '+')).length, lstripPlus s, rfl, ?_, ?_⟩
    · have h1 : s.data.takeWhile (fun c => c == '+') =
          List.replicate (s.data.takeWhile (fun c => c == '+')).length '+' := by
        apply List.eq_replicate_length.mpr
        intro b hb
        simpa using List.mem_takeWhile_imp hb
      have h2 : (lstripPlus s).data = s.data.dropWhile (fun c => c == '+') := rfl
      rw [h2, ← h1, List.takeWhile_append_dropWhile]
    · intro c hc
      have h2 : (lstripPlus s).data = s.data.dropWhile (fun c => c == '+') := rfl
      rw [h2] at hc
      simpa using head_dropWhile_not _ c hc
  · intro a b rest
    rfl
  · decide
  · decide

/-- C6: when two or more segments are left over after object resolution,
`resolve_response` yields the not-found outcome with `view_name` set to
`None`, for every environment and hence regardless of what handlers the
view registry contains: `get_view` is never consulted. -/
theorem C6_two_or_more_segments_not_found (env : Env α ρ) (obj : Option (Obj α))
    (a b : String) (rest : List String) (ap : AppId) (vn : Option String)
    (par : AppId → Option AppId) :
    resolve_response env obj ⟨a :: b :: rest, ap, vn, par⟩ =
      (.notFound, ⟨a :: b :: rest, ap, none, par⟩) := by
  simp [resolve_response, get_view_name]

/-- C10: on the two-or-more-leftover-segments error path,
`resolve_response` writes the non-string value `None` into
`request.view_name` before raising not-found: the request is mutated even
on failure, and afterwards `view_name` holds `None` rather than any string
or its previous value. -/
theorem C10_view_name_none_on_error (env : Env α ρ) (obj : Option (Obj α))
    (a b : String) (rest : List String) (ap : AppId) (v : String)
    (par : AppId → Option AppId) :
    (resolve_response env obj ⟨a :: b :: rest, ap, some v, par⟩).2.view_name = none ∧
    (resolve_response env obj ⟨a :: b :: rest, ap, some v, par⟩).2.view_name ≠ some v ∧
    (resolve_response env obj ⟨a :: b :: rest, ap, some v, par⟩).1 = .notFound := by
  refine ⟨?_, ?_, ?_⟩ <;> simp [resolve_response, get_view_name]

/-- C8: a request entering `resolve_model` with an already-empty stack (the
loop body never runs) still triggers exactly one `consume` call against the
current application's registry, and `resolve_model` returns that call's
result rather than `None`-without-consulting. -/
theorem C8_empty_stack_still_consults (env : Env α ρ) (fuel : Nat) (ap : AppId)
    (vn : Option String) (par : AppId → Option AppId) :
    (resolve_model env (fuel + 1) ⟨[], ap, vn, par⟩).calls = 1 ∧
    (resolve_model env (fuel + 1) ⟨[], ap, vn, par⟩).res =
      (match (env.consume ap []).1 with
       | none => RMRes.nul
       | some o => RMRes.obj o) ∧
    (resolve_model env (fuel + 1) ⟨[], ap, vn, par⟩).st =
      ⟨(env.consume ap []).2, ap, vn, par⟩ := by
  refine ⟨?_, ?_, ?_⟩ <;> simp [resolve_model, resolveModelLoop]

end Morepath


namespace Morepath

/-! ### Step equations for the loop -/

/-- Exhausted fuel: the loop is stopped by the `fuelOut` marker. -/
theorem resolveModelLoop_zero (env : Env α ρ) (ap : AppId) (st : RState) :
    resolveModelLoop env 0 ap st = ⟨.fuelOut, ap, st, 0⟩ := rfl

/-- One unfolding of the loop at positive fuel. -/
theorem resolveModelLoop_succ (env : Env α ρ) (fuel : Nat) (ap : AppId)
    (st : RState) :
    resolveModelLoop env (fuel + 1) ap st =
      if st.unconsumed.isEmpty then
        ⟨.fell false, ap, st, 0⟩
      else
        let r := env.consume ap st.unconsumed
        let st1 : RState := { st with unconsumed := r.2 }
        match r.1 with
        | none => ⟨.fell true, ap, st1, 1⟩
        | some (.model m) => ⟨.ret m, ap, st1, 1⟩
        | some (.app b) =>
          let st2 : RState :=
            { st1 with
              app := b
              parent := fun x => if x = b then some ap else st1.parent x }
          let out := resolveModelLoop env fuel b st2
          { out with calls := out.calls + 1 } := rfl

/-- A nonempty stack has `isEmpty = false`. -/
theorem isEmpty_false_of_ne_nil {l : List String} (h : l ≠ []) :
    l.isEmpty = false := by
  cases hl : l with
  | nil => exact absurd hl h
  | cons a t => rfl

/-- Loop step on an empty stack: exit without any consume call. -/
theorem resolveModelLoop_succ_empty (env : Env α ρ) (fuel : Nat) (ap : AppId)
    (st : RState) (h : st.unconsumed = []) :
    resolveModelLoop env (fuel + 1) ap st = ⟨.fell false, ap, st, 0⟩ := by
  rw [resolveModelLoop_succ, h]
  rfl

/-- Loop step on a not-found signal: record the rewritten stack and break. -/
theorem resolveModelLoop_succ_none (env : Env α ρ) (fuel : Nat) (ap : AppId)
    (st : RState) (unc' : List String) (hne : st.unconsumed ≠ [])
    (hc : env.consume ap st.unconsumed = (none, unc')) :
    resolveModelLoop env (fuel + 1) ap st =
      ⟨.fell true, ap, { st with unconsumed := unc' }, 1⟩ := by
  rw [resolveModelLoop_succ, isEmpty_false_of_ne_nil hne]
  simp only [Bool.false_eq_true, if_false, hc]

/-- Loop step on a non-app object: return it at once. -/
theorem resolveModelLoop_succ_model (env : Env α ρ) (fuel : Nat) (ap : AppId)
    (st : RState) (m : α) (unc' : List String) (hne : st.unconsumed ≠ [])
    (hc : env.consume ap st.unconsumed = (some (.model m), unc')) :
    resolveModelLoop env (fuel + 1) ap st =
      ⟨.ret m, ap, { st with unconsumed := unc' }, 1⟩ := by
  rw [resolveModelLoop_succ, isEmpty_false_of_ne_nil hne]
  simp only [Bool.false_eq_true, if_false, hc]

/-- Loop step on an app: the mount transition writes the app's parent
field, reassigns the request's current app, and the loop continues. -/
theorem resolveModelLoop_succ_app (env : Env α ρ) (fuel : Nat) (ap : AppId)
    (st : RState) (b : AppId) (unc' : List String) (hne : st.unconsumed ≠ [])
    (hc : env.consume ap st.unconsumed = (some (.app b), unc')) :
    resolveModelLoop env (fuel + 1) ap st =
      { resolveModelLoop env fuel b
          { st with
            unconsumed := unc'
            app := b
            parent := fun x => if x = b then some ap else st.parent x } with
        calls := (resolveModelLoop env fuel b
          { st with
            unconsumed := unc'
            app := b
            parent := fun x => if x = b then some ap else st.parent x }).calls + 1 } := by
  rw [resolveModelLoop_succ, isEmpty_false_of_ne_nil hne]
  simp only [Bool.false_eq_true, if_false, hc]

end Morepath

namespace Morepath

/-- Under `ShrinksOnApp`, fuel exceeding the stack length is never
exhausted, and the loop makes at most one `consume` call per initial
segment. -/
theorem resolveModelLoop_bound (env : Env α ρ) (hsh : ShrinksOnApp env) :
    ∀ fuel : Nat, ∀ ap : AppId, ∀ st : RState,
      st.unconsumed.length < fuel →
        (resolveModelLoop env fuel ap st).exit ≠ .fuelOut ∧
        (resolveModelLoop env fuel ap st).calls ≤ st.unconsumed.length := by
  intro fuel
  induction fuel with
  | zero =>
    intro ap st h
    exact absurd h (Nat.not_lt_zero _)
  | succ fuel ih =>
    intro ap st h
    by_cases hne : st.unconsumed = []
    · rw [resolveModelLoop_succ_empty env fuel ap st hne]
      exact ⟨by simp, by simp⟩
    · have hlen : 1 ≤ st.unconsumed.length := by
        cases hl : st.unconsumed with
        | nil => exact absurd hl hne
        | cons a t => simp
      rcases hc : env.consume ap st.unconsumed with ⟨res, unc'⟩
      rcases res with _ | ob
      · rw [resolveModelLoop_succ_none env fuel ap st unc' hne hc]
        exact ⟨by simp, hlen⟩
      · rcases ob with b | m
        · have hlt : unc'.length < st.unconsumed.length :=
            hsh ap st.unconsumed b unc' hne hc
          rw [resolveModelLoop_succ_app env fuel ap st b unc' hne hc]
          have hrec := ih b
            { st with
              unconsumed := unc'
              app := b
              parent := fun x => if x = b then some ap else st.parent x }
            (by simpa using Nat.lt_of_lt_of_le hlt (Nat.lt_succ_iff.mp h))
          refine ⟨hrec.1, ?_⟩
          have h2 : (resolveModelLoop env fuel b
              { st with
                unconsumed := unc'
                app := b
                parent := fun x => if x = b then some ap else st.parent x }).calls ≤
              unc'.length := hrec.2
          dsimp only
          omega
        · rw [resolveModelLoop_succ_model env fuel ap st m unc' hne hc]
          exact ⟨by simp, hlen⟩

end Morepath

namespace Morepath

/-- Under `ShrinksOnApp`, one more unit of fuel beyond the stack length
changes nothing: the loop has already finished. -/
theorem resolveModelLoop_fuel_stable (env : Env α ρ) (hsh : ShrinksOnApp env) :
    ∀ fuel : Nat, ∀ ap : AppId, ∀ st : RState,
      st.unconsumed.length < fuel →
        resolveModelLoop env (fuel + 1) ap st = resolveModelLoop env fuel ap st := by
  intro fuel
  induction fuel with
  | zero =>
    intro ap st h
    exact absurd h (Nat.not_lt_zero _)
  | succ fuel ih =>
    intro ap st h
    by_cases hne : st.unconsumed = []
    · rw [resolveModelLoop_succ_empty env (fuel + 1) ap st hne,
        resolveModelLoop_succ_empty env fuel ap st hne]
    · rcases hc : env.consume ap st.unconsumed with ⟨res, unc'⟩
      rcases res with _ | ob
      · rw [resolveModelLoop_succ_none env (fuel + 1) ap st unc' hne hc,
          resolveModelLoop_succ_none env fuel ap st unc' hne hc]
      · rcases ob with b | m
        · have hlt : unc'.length < st.unconsumed.length :=
            hsh ap st.unconsumed b unc' hne hc
          rw [resolveModelLoop_succ_app env (fuel + 1) ap st b unc' hne hc,
            resolveModelLoop_succ_app env fuel ap st b unc' hne hc,
            ih b _ (by simpa using Nat.lt_of_lt_of_le hlt (Nat.lt_succ_iff.mp h))]
        · rw [resolveModelLoop_succ_model env (fuel + 1) ap st m unc' hne hc,
            resolveModelLoop_succ_model env fuel ap st m unc' hne hc]

/-- Under `ShrinksOnApp`, any fuel beyond the stack length computes the
same loop result as fuel `length + 1`: the loop terminates there. -/
theorem resolveModelLoop_fuel_ge (env : Env α ρ) (hsh : ShrinksOnApp env)
    (ap : AppId) (st : RState) :
    ∀ fuel : Nat, st.unconsumed.length < fuel →
      resolveModelLoop env fuel ap st =
        resolveModelLoop env (st.unconsumed.length + 1) ap st := by
  intro fuel
  induction fuel with
  | zero =>
    intro h
    exact absurd h (Nat.not_lt_zero _)
  | succ fuel ih =>
    intro h
    rcases Nat.lt_or_ge st.unconsumed.length fuel with h' | h'
    · rw [resolveModelLoop_fuel_stable env hsh fuel ap st h', ih h']
    · have hf : st.unconsumed.length + 1 = fuel + 1 := by omega
      rw [hf]

end Morepath

namespace Morepath

/-- When the loop's fuel was not exhausted, `resolve_model` yields no
`fuelOut` marker and makes at most one more `consume` call than the loop. -/
theorem resolve_model_of_loop (env : Env α ρ) (fuel : Nat) (st : RState)
    (h : (resolveModelLoop env fuel st.app st).exit ≠ .fuelOut) :
    (resolve_model env fuel st).res ≠ .fuelOut ∧
    (resolve_model env fuel st).calls ≤
      (resolveModelLoop env fuel st.app st).calls + 1 := by
  unfold resolve_model
  rcases hE : resolveModelLoop env fuel st.app st with ⟨ex, ap', st', calls⟩
  rw [hE] at h
  cases ex with
  | ret m => exact ⟨by simp, by simp⟩
  | fuelOut => exact absurd rfl h
  | fell nf =>
    dsimp only
    by_cases he : st'.unconsumed.isEmpty
    · rw [if_pos he]
      constructor
      · rcases (env.consume ap' st'.unconsumed).1 with _ | o <;> simp
      · simp
    · rw [if_neg he]
      exact ⟨by simp, by simp⟩

/-- C3: for a request with `n` unconsumed segments, the `resolve_model`
loop terminates — fuel `n + 1` already computes the stable answer and the
fuel-exhaustion marker never shows — and at most `n + 1` consume calls are
made, under the invariant that a consume call returning an App (the only
way an iteration neither consumes a segment nor ends the loop otherwise)
pops at least one segment. -/
theorem C3_resolve_model_terminates (env : Env α ρ) (st : RState) (fuel : Nat)
    (hsh : ShrinksOnApp env) (hfuel : st.unconsumed.length < fuel) :
    (resolve_model env fuel st).res ≠ .fuelOut ∧
    (resolve_model env fuel st).calls ≤ st.unconsumed.length + 1 ∧
    resolve_model env fuel st =
      resolve_model env (st.unconsumed.length + 1) st := by
  have hb := resolveModelLoop_bound env hsh fuel st.app st hfuel
  obtain ⟨hres, hcalls⟩ := resolve_model_of_loop env fuel st hb.1
  refine ⟨hres, ?_, ?_⟩
  · have h2 := hb.2
    omega
  · unfold resolve_model
    rw [resolveModelLoop_fuel_ge env hsh st.app st fuel hfuel]

/-- Witness for C3 at a one-segment request against the leaf registry. -/
theorem C3_termination_witness :
    ShrinksOnApp envLeaf ∧
    (mkSt ["x"] 0).unconsumed.length < 2 ∧
    ((resolve_model envLeaf 2 (mkSt ["x"] 0)).res ≠ .fuelOut ∧
     (resolve_model envLeaf 2 (mkSt ["x"] 0)).calls ≤
       (mkSt ["x"] 0).unconsumed.length + 1 ∧
     resolve_model envLeaf 2 (mkSt ["x"] 0) =
       resolve_model envLeaf ((mkSt ["x"] 0).unconsumed.length + 1)
         (mkSt ["x"] 0)) := by
  have hsh : ShrinksOnApp envLeaf := by
    intro a unc b unc' hne hc
    simp [envLeaf] at hc
  exact ⟨hsh, by decide,
    C3_resolve_model_terminates envLeaf (mkSt ["x"] 0) 2 hsh (by decide)⟩

/-- C9: re-running `resolve_model` on a request whose stack is already
empty, at an app whose (deterministic) registry leaves the drained request
unchanged, yields the same final object as the first run. -/
theorem C9_resolve_model_idempotent (env : Env α ρ) (f1 f2 : Nat) (ap : AppId)
    (vn : Option String) (par : AppId → Option AppId)
    (hleaf : (env.consume ap []).2 = []) :
    (resolve_model env (f2 + 1)
        (resolve_model env (f1 + 1) ⟨[], ap, vn, par⟩).st).res =
      (resolve_model env (f1 + 1) ⟨[], ap, vn, par⟩).res := by
  have h1 : (resolve_model env (f1 + 1) ⟨[], ap, vn, par⟩).st = ⟨[], ap, vn, par⟩ := by
    unfold resolve_model
    rw [resolveModelLoop_succ_empty env f1 ap ⟨[], ap, vn, par⟩ rfl]
    simp [hleaf]
  rw [h1]
  unfold resolve_model
  rw [resolveModelLoop_succ_empty env f1 ap ⟨[], ap, vn, par⟩ rfl,
    resolveModelLoop_succ_empty env f2 ap ⟨[], ap, vn, par⟩ rfl]

/-- Witness for C9 at the leaf registry. -/
theorem C9_idempotence_witness :
    (envLeaf.consume 0 []).2 = [] ∧
    (resolve_model envLeaf 1
        (resolve_model envLeaf 1 ⟨[], 0, none, parent0⟩).st).res =
      (resolve_model envLeaf 1 ⟨[], 0, none, parent0⟩).res :=
  ⟨rfl, C9_resolve_model_idempotent envLeaf 0 0 0 none parent0 rfl⟩

end Morepath

namespace Morepath

/-- C7: when `consume` returns an Application, `resolve_model` sets that
application's parent reference to the current app, reassigns both the
request's `app` field and the loop-local current app to it (the recursive
call runs against the updated state, whose `app` is the mount target), and
continues the loop at one consume call spent; when `consume` returns a
non-Application object, `resolve_model` returns it immediately. -/
theorem C7_mount_transition (env : Env α ρ) (fuel : Nat) (st : RState)
    (hne : st.unconsumed ≠ []) :
    (∀ b : AppId, ∀ unc' : List String,
      env.consume st.app st.unconsumed = (some (.app b), unc') →
        resolve_model env (fuel + 1) st =
          { resolve_model env fuel
              { st with
                unconsumed := unc'
                app := b
                parent := fun x => if x = b then some st.app else st.parent x } with
            calls := (resolve_model env fuel
              { st with
                unconsumed := unc'
                app := b
                parent := fun x => if x = b then some st.app else st.parent x }).calls + 1 }) ∧
    (∀ m : α, ∀ unc' : List String,
      env.consume st.app st.unconsumed = (some (.model m), unc') →
        resolve_model env (fuel + 1) st =
          ⟨.obj (.model m), { st with unconsumed := unc' }, 1⟩) := by
  constructor
  · intro b unc' hc
    unfold resolve_model
    rw [resolveModelLoop_succ_app env fuel st.app st b unc' hne hc]
    rcases hL : resolveModelLoop env fuel b
        { st with
          unconsumed := unc'
          app := b
          parent := fun x => if x = b then some st.app else st.parent x }
      with ⟨ex, ap', st', calls⟩
    cases ex with
    | ret m => rfl
    | fuelOut => rfl
    | fell nf =>
      dsimp only
      by_cases he : st'.unconsumed.isEmpty
      · rw [if_pos he, if_pos he]
      · rw [if_neg he, if_neg he]
  · intro m unc' hc
    unfold resolve_model
    rw [resolveModelLoop_succ_model env fuel st.app st m unc' hne hc]

/-- Witness for C7's mount-transition half, at the mount fixture: the path
`sub` at app 0 becomes a resolution continued at app 1 with app 1's parent
set to app 0. -/
theorem C7_mount_transition_witness :
    resolve_model envMount 2 stMount =
      { resolve_model envMount 1 stAfterMount with
        calls := (resolve_model envMount 1 stAfterMount).calls + 1 } :=
  (C7_mount_transition envMount 1 stMount (by decide)).1 1 [] rfl

end Morepath

namespace Morepath

/-- The loop never writes the request's `view_name` field. -/
theorem resolveModelLoop_view_name (env : Env α ρ) :
    ∀ fuel : Nat, ∀ ap : AppId, ∀ st : RState,
      (resolveModelLoop env fuel ap st).st.view_name = st.view_name := by
  intro fuel
  induction fuel with
  | zero => intro ap st; rfl
  | succ fuel ih =>
    intro ap st
    by_cases hne : st.unconsumed = []
    · rw [resolveModelLoop_succ_empty env fuel ap st hne]
    · rcases hc : env.consume ap st.unconsumed with ⟨res, unc'⟩
      rcases res with _ | ob
      · rw [resolveModelLoop_succ_none env fuel ap st unc' hne hc]
      · rcases ob with b | m
        · rw [resolveModelLoop_succ_app env fuel ap st b unc' hne hc]
          exact ih b _
        · rw [resolveModelLoop_succ_model env fuel ap st m unc' hne hc]

/-- The loop rewrites the parent field only of apps that some consume call
returned as a mount target. -/
theorem resolveModelLoop_parent (env : Env α ρ) :
    ∀ fuel : Nat, ∀ ap : AppId, ∀ st : RState, ∀ x : AppId,
      (resolveModelLoop env fuel ap st).st.parent x = st.parent x ∨
      ∃ a : AppId, ∃ unc unc' : List String,
        env.consume a unc = (some (.app x), unc') := by
  intro fuel
  induction fuel with
  | zero => intro ap st x; exact Or.inl rfl
  | succ fuel ih =>
    intro ap st x
    by_cases hne : st.unconsumed = []
    · rw [resolveModelLoop_succ_empty env fuel ap st hne]
      exact Or.inl rfl
    · rcases hc : env.consume ap st.unconsumed with ⟨res, unc'⟩
      rcases res with _ | ob
      · rw [resolveModelLoop_succ_none env fuel ap st unc' hne hc]
        exact Or.inl rfl
      · rcases ob with b | m
        · rw [resolveModelLoop_succ_app env fuel ap st b unc' hne hc]
          by_cases hx : x = b
          · exact Or.inr ⟨ap, st.unconsumed, unc', hx ▸ hc⟩
          · rcases ih b
                { st with
                  unconsumed := unc'
                  app := b
                  parent := fun y => if y = b then some ap else st.parent y } x
              with h | h
            · left
              rw [h]
              simp [hx]
            · exact Or.inr h
        · rw [resolveModelLoop_succ_model env fuel ap st m unc' hne hc]
          exact Or.inl rfl

/-- The final consume attempt of `resolve_model` rewrites only
`unconsumed`: the `view_name` and `parent` fields it hands back are those
the loop left. -/
theorem resolve_model_st_fields (env : Env α ρ) (fuel : Nat) (st : RState) :
    (resolve_model env fuel st).st.view_name =
      (resolveModelLoop env fuel st.app st).st.view_name ∧
    (resolve_model env fuel st).st.parent =
      (resolveModelLoop env fuel st.app st).st.parent := by
  unfold resolve_model
  rcases hE : resolveModelLoop env fuel st.app st with ⟨ex, ap', st', calls⟩
  cases ex with
  | ret m => exact ⟨rfl, rfl⟩
  | fuelOut => exact ⟨rfl, rfl⟩
  | fell nf =>
    dsimp only
    by_cases he : st'.unconsumed.isEmpty
    · rw [if_pos he]
      exact ⟨rfl, rfl⟩
    · rw [if_neg he]
      exact ⟨rfl, rfl⟩

end Morepath

namespace Morepath

/-- C2 is refuted on the mount fixture: resolving the path `sub` writes the
parent field of Application 1 — state shared beyond the request's own
fields — where the claim says no field of any Application object is ever
written. -/
theorem C2_counterexample_parent_written :
    stMount.parent 1 = none ∧
    (resolve_model envMount 2 stMount).st.parent 1 = some 0 := ⟨rfl, rfl⟩

/-- C2 amended: during request handling the code writes only the
per-request fields — `view_name` is untouched by `resolve_model` and is the
only field `resolve_response` writes — plus the parent field of those
applications that some consume call returned as a mount target; the
registries, being outside the mutable state, are never written. -/
theorem C2_amended_frame (env : Env α ρ) (fuel : Nat) (st : RState)
    (obj : Option (Obj α)) :
    (resolve_model env fuel st).st.view_name = st.view_name ∧
    ((resolve_response env obj st).2.unconsumed = st.unconsumed ∧
     (resolve_response env obj st).2.app = st.app ∧
     (resolve_response env obj st).2.parent = st.parent) ∧
    (∀ x : AppId, (resolve_model env fuel st).st.parent x ≠ st.parent x →
      ∃ a : AppId, ∃ unc unc' : List String,
        env.consume a unc = (some (.app x), unc')) := by
  refine ⟨?_, ?_, ?_⟩
  · rw [(resolve_model_st_fields env fuel st).1,
      resolveModelLoop_view_name env fuel st.app st]
  · unfold resolve_response
    rcases hv : get_view_name st.unconsumed with _ | v
    · exact ⟨rfl, rfl, rfl⟩
    · dsimp only
      exact ⟨rfl, rfl, rfl⟩
  · intro x hx
    rw [(resolve_model_st_fields env fuel st).2] at hx
    rcases resolveModelLoop_parent env fuel st.app st x with h | h
    · exact absurd h hx
    · exact h

end Morepath

namespace Morepath

/-- C4 is refuted on the draining registry: `consume` pops the only segment
while signalling not-found, so the loop exits via the not-found `break` —
yet `resolve_model` still performs the final consume attempt (two calls in
total) and returns its non-null result, where the claim's "exactly when the
loop exited ... without an explicit not-found signal" forbids it. -/
theorem C4_counterexample_consume_after_miss :
    (resolveModelLoop envDrain 2 (mkSt ["a"] 0).app (mkSt ["a"] 0)).exit =
      .fell true ∧
    (resolveModelLoop envDrain 2 (mkSt ["a"] 0).app (mkSt ["a"] 0)).calls = 1 ∧
    (resolve_model envDrain 2 (mkSt ["a"] 0)).calls = 2 ∧
    (resolve_model envDrain 2 (mkSt ["a"] 0)).res = .obj (.model 42) :=
  ⟨rfl, rfl, rfl, rfl⟩

/-- What `resolve_model` does after the loop fell through (by either
route): the final consume attempt happens exactly when the stack is empty,
else null is returned with no further call. -/
theorem resolve_model_after_fell (env : Env α ρ) (fuel : Nat) (st : RState)
    (nf : Bool)
    (hexit : (resolveModelLoop env fuel st.app st).exit = .fell nf) :
    ((resolveModelLoop env fuel st.app st).st.unconsumed = [] →
      resolve_model env fuel st =
        ⟨(match (env.consume (resolveModelLoop env fuel st.app st).app []).1 with
           | none => .nul
           | some o => .obj o),
         { (resolveModelLoop env fuel st.app st).st with
           unconsumed :=
             (env.consume (resolveModelLoop env fuel st.app st).app []).2 },
         (resolveModelLoop env fuel st.app st).calls + 1⟩) ∧
    ((resolveModelLoop env fuel st.app st).st.unconsumed ≠ [] →
      resolve_model env fuel st =
        ⟨.nul, (resolveModelLoop env fuel st.app st).st,
         (resolveModelLoop env fuel st.app st).calls⟩) := by
  unfold resolve_model
  rcases hE : resolveModelLoop env fuel st.app st with ⟨ex, ap', st', calls⟩
  rw [hE] at hexit
  cases ex with
  | ret m => exact absurd hexit (by simp)
  | fuelOut => exact absurd hexit (by simp)
  | fell nf' =>
    dsimp only
    constructor
    · intro hemp
      rw [if_pos (by rw [hemp]; rfl), hemp]
    · intro hne
      rw [if_neg (by rw [isEmpty_false_of_ne_nil hne]; exact Bool.false_ne_true)]

/-- C4 amended: the final extra consume attempt happens exactly when
`unconsumed` is empty once the loop has exited — whether it exited by
exhausting segments or via a not-found signal whose consume call had itself
drained the stack — and returns whatever that consume yields; when the loop
exited via not-found with leftover segments still present, `resolve_model`
returns null with no further consume call. -/
theorem C4_amended_final_consume (env : Env α ρ) (fuel : Nat) (st : RState)
    (nf : Bool)
    (hexit : (resolveModelLoop env fuel st.app st).exit = .fell nf) :
    ((resolveModelLoop env fuel st.app st).st.unconsumed = [] →
      resolve_model env fuel st =
        ⟨(match (env.consume (resolveModelLoop env fuel st.app st).app []).1 with
           | none => .nul
           | some o => .obj o),
         { (resolveModelLoop env fuel st.app st).st with
           unconsumed :=
             (env.consume (resolveModelLoop env fuel st.app st).app []).2 },
         (resolveModelLoop env fuel st.app st).calls + 1⟩) ∧
    ((resolveModelLoop env fuel st.app st).st.unconsumed ≠ [] →
      resolve_model env fuel st =
        ⟨.nul, (resolveModelLoop env fuel st.app st).st,
         (resolveModelLoop env fuel st.app st).calls⟩) :=
  resolve_model_after_fell env fuel st nf hexit

/-- Witness for the amended C4 at the draining registry: the loop exited
via the not-found signal with the stack drained, and the final consume
attempt both happened and produced the root object. -/
theorem C4_amended_witness :
    (resolveModelLoop envDrain 2 (mkSt ["a"] 0).app (mkSt ["a"] 0)).exit =
      .fell true ∧
    (resolveModelLoop envDrain 2 (mkSt ["a"] 0).app (mkSt ["a"] 0)).st.unconsumed = [] ∧
    resolve_model envDrain 2 (mkSt ["a"] 0) =
      ⟨.obj (.model 42), ⟨[], 0, none, parent0⟩, 2⟩ :=
  ⟨rfl, rfl,
    (C4_amended_final_consume envDrain 2 (mkSt ["a"] 0) true rfl).1 rfl⟩

end Morepath

namespace Morepath

/-- C1 is refuted with one leftover segment: the registry signals not-found
leaving `x` unconsumed, `resolve_model` returns null — but view-name
derivation succeeds (one segment), dispatch via `get_view` is reached with
the unresolved (null) object, and a registry that answers for it makes
`publish` return a response instead of not-found. -/
theorem C1_counterexample_one_leftover :
    (resolveModelLoop envAlwaysMiss 2 (mkSt ["x"] 0).app (mkSt ["x"] 0)).exit =
      .fell true ∧
    (resolveModelLoop envAlwaysMiss 2 (mkSt ["x"] 0).app
        (mkSt ["x"] 0)).st.unconsumed = ["x"] ∧
    (resolve_model envAlwaysMiss 2 (mkSt ["x"] 0)).res = .nul ∧
    (publish envAlwaysMiss 2 (mkSt ["x"] 0)).1 = .resp 99 :=
  ⟨rfl, rfl, rfl, rfl⟩

/-- C1 amended: when consume signals not-found leaving two or more
segments unconsumed, `resolve_model` stops without raising and returns
null, view-name derivation fails on the leftover segments, and `publish`
yields not-found for every environment — `get_view` is never reached.
(With exactly one leftover segment a view name is derived and `get_view`
is consulted with the null object.) -/
theorem C1_amended_miss_two_leftover (env : Env α ρ) (fuel : Nat) (st : RState)
    (a b : String) (rest : List String)
    (hexit : (resolveModelLoop env fuel st.app st).exit = .fell true)
    (hleft : (resolveModelLoop env fuel st.app st).st.unconsumed = a :: b :: rest) :
    (resolve_model env fuel st).res = .nul ∧
    publish env fuel st =
      (.notFound,
       { (resolveModelLoop env fuel st.app st).st with view_name := none }) := by
  have hrm : resolve_model env fuel st =
      ⟨.nul, (resolveModelLoop env fuel st.app st).st,
       (resolveModelLoop env fuel st.app st).calls⟩ :=
    (resolve_model_after_fell env fuel st true hexit).2 (by rw [hleft]; simp)
  refine ⟨by rw [hrm], ?_⟩
  unfold publish
  rw [hrm]
  dsimp only
  unfold resolve_response
  rw [hleft]
  rfl

/-- Witness for the amended C1: not-found with the two segments `x`, `y`
left over makes `publish` end in not-found even against the view registry
that would answer any lookup. -/
theorem C1_amended_witness :
    (resolveModelLoop envAlwaysMiss 2 (mkSt ["x", "y"] 0).app
        (mkSt ["x", "y"] 0)).exit = .fell true ∧
    (resolveModelLoop envAlwaysMiss 2 (mkSt ["x", "y"] 0).app
        (mkSt ["x", "y"] 0)).st.unconsumed = ["x", "y"] ∧
    ((resolve_model envAlwaysMiss 2 (mkSt ["x", "y"] 0)).res = .nul ∧
     publish envAlwaysMiss 2 (mkSt ["x", "y"] 0) =
       (.notFound,
        { (resolveModelLoop envAlwaysMiss 2 (mkSt ["x", "y"] 0).app
             (mkSt ["x", "y"] 0)).st with view_name := none })) :=
  ⟨rfl, rfl,
    C1_amended_miss_two_leftover envAlwaysMiss 2 (mkSt ["x", "y"] 0)
      "x" "y" [] rfl rfl⟩

end Morepath
